import Mathlib

/-!
Verification development for the Wazuh batching/correlation engine fragment:
the producer-facing `BatcherClient` (framework/wazuh/core/batcher/client.py),
the process-shutdown path of the communications API entry point
(apis/comms_api/scripts/wazuh_comms_apid.py), and the logging-level model
(framework/wazuh/core/config/models/logging.py).

Python floats used for time intervals are modelled as rationals; Python dicts
as ordered association lists; the event loop's passage of time as an explicit
index of poll steps; the `while True` loop of `get_response` as a
fuel-indexed recursion where exhausting the fuel (result `none`) means the
loop performed that many iterations without returning.
-/

namespace Wazuh

/-- A dynamically-typed Python value, as found in the merged payload
mappings built by `send_operation`.  `PyValue.none` models Python `None`. -/
inductive PyValue
| str : String → PyValue
| int : Int → PyValue
| bool : Bool → PyValue
| none : PyValue
deriving DecidableEq, Repr

/-- An ordered string-keyed mapping, the shape `pydantic`'s `model_dump()`
produces. -/
abbrev PyDict := List (String × PyValue)

/-- Lookup of a key in a `PyDict` (first occurrence). -/
def dictGet (d : PyDict) (k : String) : Option PyValue :=
  match d.find? (fun kv => kv.1 == k) with
  | some kv => some kv.2
  | Option.none => Option.none

/-- Left-biased choice on optional values: `optOr a b` is `a` when `a` is
`some`, else `b`. -/
def optOr (a b : Option PyValue) : Option PyValue :=
  match a with
  | some v => some v
  | Option.none => b

/-- `model_dump(exclude_none=True)`: the mapping with `None`-valued fields
removed. -/
def model_dump_exclude_none (d : PyDict) : PyDict :=
  d.filter (fun kv => !(kv.2 == PyValue.none))

/-- Python dict union `a | b`: keys of `a` in order with values overridden
by `b` where present, followed by the keys of `b` absent from `a`. -/
def pyDictUnion (a b : PyDict) : PyDict :=
  a.map (fun kv =>
    match dictGet b kv.1 with
    | some v => (kv.1, v)
    | Option.none => kv)
  ++ b.filter (fun kv => (dictGet a kv.1).isNone)

/-- Modelled from the spec: the Record / `Item` of
`wazuh.core.batcher.mux_demux` (not under src/): identifier, operation
kind, optional payload, destination tag. -/
structure Item where
  id : Nat
  operation : String
  content : Option PyDict
  index_name : String
deriving DecidableEq, Repr

/-- Modelled from the spec: the Correlation Queue (`MuxDemuxQueue` of
`wazuh.core.batcher.mux_demux`, not under src/): an inbound channel `mux`
of not-yet-batched items, an outbound mapping `responses` from item id to
the currently stored result, and the set `recorded` of ids for which a
result has ever been recorded (so that an id stays not-pending after its
result is consumed). -/
structure MuxDemuxQueue where
  mux : List Item
  responses : List (Nat × PyDict)
  recorded : List Nat
deriving DecidableEq, Repr

/-- Modelled from the spec: `submit`/`send_to_mux` enqueues the item on the
inbound channel and never touches the outbound side. -/
def send_to_mux (q : MuxDemuxQueue) (i : Item) : MuxDemuxQueue :=
  { q with mux := q.mux ++ [i] }

/-- Modelled from the spec: `is_pending(id)` is true iff no result has been
recorded yet for `id`. -/
def is_response_pending (q : MuxDemuxQueue) (item_id : Nat) : Bool :=
  !(q.recorded.contains item_id)

/-- Modelled from the spec: `take_result(id)` removes and returns the stored
result for `id`; when none is stored (never recorded, or already consumed)
it returns the "not found" marker `none` and leaves the queue unchanged. -/
def receive_from_demux (q : MuxDemuxQueue) (item_id : Nat) :
    Option PyDict × MuxDemuxQueue :=
  match q.responses.find? (fun kv => kv.1 == item_id) with
  | some kv =>
      (some kv.2, { q with responses := q.responses.eraseP (fun kv2 => kv2.1 == item_id) })
  | Option.none => (Option.none, q)

/-- Modelled from the spec: agent metadata is an opaque pydantic model; all
the client uses is its `model_dump()` mapping. -/
structure AgentMetadata where
  model_dump : PyDict

/-- Modelled from the spec: a stateful event carries a `data` model whose
dump is a mapping possibly holding `None`-valued fields. -/
structure StatefulEvent where
  data : PyDict

/-- Modelled from the spec: the event header supplies the item id, the
operation kind, and the module/type pair that resolves the destination. -/
structure Header where
  id : Nat
  operation : String
  module : String
  type : String

/-- `BatcherClient` state: the queue handle and the poll interval
(client.py lines 20-22). -/
structure BatcherClient where
  queue : MuxDemuxQueue
  wait_frequency : ℚ

/-- The default of the `wait_frequency` parameter of
`BatcherClient.__init__` (client.py line 20): 0.1 seconds. -/
def default_wait_frequency : ℚ := 1/10

/-- `BatcherClient(queue, wait_frequency)` with the poll interval given
explicitly. -/
def BatcherClient.init (queue : MuxDemuxQueue) (wait_frequency : ℚ) : BatcherClient :=
  ⟨queue, wait_frequency⟩

/-- `BatcherClient(queue)` with the poll interval left at its default. -/
def BatcherClient.initDefault (queue : MuxDemuxQueue) : BatcherClient :=
  BatcherClient.init queue default_wait_frequency

/-- An observable effect of a `BatcherClient` call: one inbound-queue
mutation, or one cooperative suspension of the given duration. -/
inductive ClientEffect
| sendToMuxEff : Item → ClientEffect
| sleepEff : ℚ → ClientEffect
deriving DecidableEq, Repr

/-- `BatcherClient.send_operation` (client.py lines 24-43).  The function
`get_module_index_name` lives in `wazuh.core.indexer.models.events`, which
is not under src/, so it is taken as a parameter.  Returns the updated
client together with the list of effects the call performs. -/
def send_operation (get_module_index_name : String → String → String)
    (c : BatcherClient) (agent_metadata : AgentMetadata) (header : Header)
    (event : Option StatefulEvent) : BatcherClient × List ClientEffect :=
  let content : Option PyDict :=
    match event with
    | some e => some (pyDictUnion agent_metadata.model_dump (model_dump_exclude_none e.data))
    | Option.none => Option.none
  let item : Item :=
    { id := header.id
      operation := header.operation
      content := content
      index_name := get_module_index_name header.module header.type }
  (⟨send_to_mux c.queue item, c.wait_frequency⟩, [ClientEffect.sendToMuxEff item])

/-- One observable event of a `get_response` run: a suspension of the given
duration, or the single `receive_from_demux` call made on return. -/
inductive GREvent
| sleep : ℚ → GREvent
| recv : Nat → GREvent
deriving DecidableEq, Repr

/-- The loop of `BatcherClient.get_response` (client.py lines 58-62),
started at poll index `start` with the given fuel.  `qs k` is the state of
the shared queue observed at poll `k` (the queue is mutated concurrently by
the Batcher process).  Returns `some (n, events, value)` when the loop
returns at poll `n`, and `none` when the fuel ran out with every observed
poll still pending. -/
def getResponseFrom (qs : Nat → MuxDemuxQueue) (wait_frequency : ℚ)
    (item_id : Nat) : Nat → Nat → Option (Nat × List GREvent × Option PyDict)
| _, 0 => Option.none
| k, Nat.succ fuel =>
    if is_response_pending (qs k) item_id then
      match getResponseFrom qs wait_frequency item_id (k + 1) fuel with
      | some (n, evs, r) => some (n, GREvent.sleep wait_frequency :: evs, r)
      | Option.none => Option.none
    else
      some (k, [GREvent.recv item_id], (receive_from_demux (qs k) item_id).1)

/-- `BatcherClient.get_response` (client.py lines 45-62): poll from index 0
using the client's configured `wait_frequency`. -/
def get_response (c : BatcherClient) (qs : Nat → MuxDemuxQueue)
    (item_id fuel : Nat) : Option (Nat × List GREvent × Option PyDict) :=
  getResponseFrom qs c.wait_frequency item_id 0 fuel

/-- Total time spent suspended across a run's events. -/
def traceElapsed (evs : List GREvent) : ℚ :=
  (evs.map (fun e =>
    match e with
    | GREvent.sleep d => d
    | GREvent.recv _ => 0)).sum

/-- `BatcherConfig` (wazuh.core.batcher.config, constructed at startup):
the three flush thresholds. -/
structure BatcherConfig where
  max_elements : Nat
  max_size : Nat
  max_time_seconds : ℚ

/-- The `batcher` section of the externally supplied communications-API
configuration (`comms_api_config.batcher`). -/
structure CommsBatcherConfig where
  max_elements : Nat
  max_size : Nat
  wait_time : ℚ

/-- The `BatcherConfig(...)` construction at startup
(wazuh_comms_apid.py lines 321-325): each threshold is taken from the
externally supplied configuration, `max_time_seconds` from `wait_time`. -/
def startup_batcher_config (c : CommsBatcherConfig) : BatcherConfig :=
  ⟨c.max_elements, c.max_size, c.wait_time⟩

/-- One step of the shutdown path of `wazuh_comms_apid.py`.  The
constructors `joinBatcher` and `finalFlush` are the vocabulary needed to
state what the spec claims about shutdown; the code's trace is built only
from the other five. -/
inductive ShutdownAction
| terminateBatcher
| joinBatcher
| finalFlush
| shutdownMuxDemux
| shutdownCommands
| deleteChildPids
| deletePid
deriving DecidableEq, Repr

/-- The sequence of actions `terminate_processes` performs
(wazuh_comms_apid.py lines 265-288): when the calling process is the
parent, terminate the batcher process, shut down the MuxDemux manager,
shut down the commands manager, delete child pid files, delete the main
pid file, in that order; otherwise nothing. -/
def terminate_processes_trace (parent_pid current_pid : Nat) : List ShutdownAction :=
  if parent_pid = current_pid then
    [ShutdownAction.terminateBatcher, ShutdownAction.shutdownMuxDemux,
     ShutdownAction.shutdownCommands, ShutdownAction.deleteChildPids,
     ShutdownAction.deletePid]
  else []

/-- The process-level resources the shutdown path touches: liveness of the
batcher process, the MuxDemux manager, the commands manager, and the pid
files. -/
structure SysState where
  batcherAlive : Bool
  muxDemuxUp : Bool
  commandsUp : Bool
  childPids : List Nat
  mainPidFile : Bool
deriving DecidableEq, Repr

/-- Modelled from the spec: the effect of each shutdown action on the
process-level state.  `Process.terminate` on an already-dead process,
manager shutdown on an already-stopped manager, and deletion of
already-absent pid files are no-ops (the sub-operations live outside
src/); joining and flushing change none of these resources. -/
def apply_action (s : SysState) : ShutdownAction → SysState
| ShutdownAction.terminateBatcher => { s with batcherAlive := false }
| ShutdownAction.joinBatcher => s
| ShutdownAction.finalFlush => s
| ShutdownAction.shutdownMuxDemux => { s with muxDemuxUp := false }
| ShutdownAction.shutdownCommands => { s with commandsUp := false }
| ShutdownAction.deleteChildPids => { s with childPids := [] }
| ShutdownAction.deletePid => { s with mainPidFile := false }

/-- `terminate_processes` as a transformer of the process-level state: fold
its action trace over the state. -/
def terminate_processes (parent_pid current_pid : Nat) (s : SysState) : SysState :=
  (terminate_processes_trace parent_pid current_pid).foldl apply_action s

/-- `LoggingLevel` (logging.py lines 16-20). -/
inductive LoggingLevel
| info
| debug
| debug2
deriving DecidableEq, Repr

/-- `LoggingConfig` (logging.py lines 32-40). -/
structure LoggingConfig where
  level : LoggingLevel

/-- `LoggingConfig.get_level_value` (logging.py lines 42-58): the if-chain
returning 0 for info, 1 for debug, 2 otherwise. -/
def LoggingConfig.get_level_value (c : LoggingConfig) : Int :=
  if c.level = LoggingLevel.info then 0
  else if c.level = LoggingLevel.debug then 1
  else 2

/-- A queue with nothing recorded: every id is still pending. -/
def qEmpty : MuxDemuxQueue := ⟨[], [], []⟩

/-- A queue on which a result for id 7 has been recorded and is stored. -/
def qDone : MuxDemuxQueue := ⟨[], [(7, [("ok", PyValue.bool true)])], [7]⟩

/-- A queue history on which id 7 is pending at poll 0 and resolved from
poll 1 on. -/
def qs01 : Nat → MuxDemuxQueue := fun k => if k = 0 then qEmpty else qDone

theorem dictGet_nil (k : String) : dictGet [] k = Option.none := rfl

theorem dictGet_cons (kv : String × PyValue) (l : PyDict) (k : String) :
    dictGet (kv :: l) k = if kv.1 = k then some kv.2 else dictGet l k := by
  by_cases h : kv.1 = k
  · simp [dictGet, List.find?_cons, h]
  · simp [dictGet, List.find?_cons, h]

theorem dictGet_append (l₁ l₂ : PyDict) (k : String) :
    dictGet (l₁ ++ l₂) k = optOr (dictGet l₁ k) (dictGet l₂ k) := by
  induction l₁ with
  | nil => simp [dictGet_nil, optOr]
  | cons kv l ih =>
      by_cases h : kv.1 = k
      · simp [dictGet_cons, h, optOr]
      · simp [dictGet_cons, h, ih]

theorem dictGet_map_override (a b : PyDict) (k : String) :
    dictGet (a.map (fun kv =>
      match dictGet b kv.1 with
      | some v => (kv.1, v)
      | Option.none => kv)) k
    = optOr ((dictGet a k).bind (fun v => optOr (dictGet b k) (some v))) Option.none := by
  induction a with
  | nil => simp [dictGet_nil, optOr]
  | cons kv l ih =>
      by_cases h : kv.1 = k
      · cases hb : dictGet b kv.1 with
        | some v => simp [dictGet_cons, h, hb, optOr, h ▸ hb]
        | none => simp [dictGet_cons, h, hb, optOr, h ▸ hb]
      · cases hb : dictGet b kv.1 with
        | some v => simpa [dictGet_cons, h, hb] using ih
        | none => simpa [dictGet_cons, h, hb] using ih

theorem dictGet_filter_keep (a b : PyDict) (k : String)
    (hk : dictGet a k = Option.none) :
    dictGet (b.filter (fun kv => (dictGet a kv.1).isNone)) k = dictGet b k := by
  induction b with
  | nil => rfl
  | cons kv l ih =>
      by_cases h : kv.1 = k
      · have : (dictGet a kv.1).isNone = true := by rw [h, hk]; rfl
        simp [List.filter_cons, this, dictGet_cons, h, hk]
      · cases hpred : (dictGet a kv.1).isNone with
        | true => simp [List.filter_cons, hpred, dictGet_cons, h, ih]
        | false => simp [List.filter_cons, hpred, dictGet_cons, h, ih]

/-- Lookup in a Python dict union is the right-biased choice: the second
operand's binding where present, else the first's. -/
theorem dictGet_pyDictUnion (a b : PyDict) (k : String) :
    dictGet (pyDictUnion a b) k = optOr (dictGet b k) (dictGet a k) := by
  unfold pyDictUnion
  rw [dictGet_append, dictGet_map_override]
  cases ha : dictGet a k with
  | some v =>
      cases hb : dictGet b k with
      | some w => simp [optOr]
      | none => simp [optOr]
  | none =>
      rw [dictGet_filter_keep a b k ha]
      cases hb : dictGet b k with
      | some w => simp [optOr]
      | none => simp [optOr]

/-- `model_dump(exclude_none=True)` leaves no `None`-valued field. -/
theorem model_dump_exclude_none_all (d : PyDict) :
    (model_dump_exclude_none d).all (fun kv => !(kv.2 == PyValue.none)) = true := by
  simp only [model_dump_exclude_none, List.all_eq_true]
  intro kv hkv
  exact (List.mem_filter.mp hkv).2

/-- Characterization of a terminating `get_response` run: the loop returns
at the first not-pending poll `n`, every earlier poll from `start` was
pending, the events are one sleep per pending poll followed by the single
`receive_from_demux` call, and the value is that call's result. -/
theorem getResponseFrom_eq_some (qs : Nat → MuxDemuxQueue) (wf : ℚ) (item_id : Nat) :
    ∀ fuel start n evs r,
      getResponseFrom qs wf item_id start fuel = some (n, evs, r) →
      start ≤ n
      ∧ (∀ k, start ≤ k → k < n → is_response_pending (qs k) item_id = true)
      ∧ is_response_pending (qs n) item_id = false
      ∧ evs = List.replicate (n - start) (GREvent.sleep wf) ++ [GREvent.recv item_id]
      ∧ r = (receive_from_demux (qs n) item_id).1 := by
  intro fuel
  induction fuel with
  | zero => intro start n evs r h; exact absurd h (by simp [getResponseFrom])
  | succ fuel ih =>
      intro start n evs r h
      rw [getResponseFrom] at h
      by_cases hp : is_response_pending (qs start) item_id = true
      · rw [if_pos hp] at h
        cases hrec : getResponseFrom qs wf item_id (start + 1) fuel with
        | none => rw [hrec] at h; exact absurd h (by simp)
        | some t =>
            obtain ⟨n', evs', r'⟩ := t
            rw [hrec] at h
            simp only [Option.some.injEq, Prod.mk.injEq] at h
            obtain ⟨hn, hevs, hr⟩ := h
            subst hn
            obtain ⟨hle, hmid, hend, hevs', hr'⟩ := ih (start + 1) n' evs' r' hrec
            refine ⟨by omega, ?_, hend, ?_, hr ▸ hr'⟩
            · intro k hk1 hk2
              rcases Nat.eq_or_lt_of_le hk1 with heq | hlt
              · exact heq ▸ hp
              · exact hmid k hlt hk2
            · rw [← hevs, hevs']
              have : n' - start = (n' - (start + 1)) + 1 := by omega
              rw [this, List.replicate_succ]
              simp
      · rw [if_neg hp] at h
        simp only [Option.some.injEq, Prod.mk.injEq] at h
        obtain ⟨hn, hevs, hr⟩ := h
        subst hn
        refine ⟨Nat.le_refl _, ?_, by simpa using hp, ?_, hr.symm⟩
        · intro k hk1 hk2; omega
        · rw [← hevs]
          simp

/-- A `get_response` run started below the first not-pending poll `n` with
enough fuel returns at `n` with one sleep per pending poll and the single
`receive_from_demux` value. -/
theorem getResponseFrom_terminates (qs : Nat → MuxDemuxQueue) (wf : ℚ) (item_id : Nat) :
    ∀ fuel start n, start ≤ n → n - start < fuel →
      (∀ k, start ≤ k → k < n → is_response_pending (qs k) item_id = true) →
      is_response_pending (qs n) item_id = false →
      getResponseFrom qs wf item_id start fuel
        = some (n, List.replicate (n - start) (GREvent.sleep wf) ++ [GREvent.recv item_id],
                (receive_from_demux (qs n) item_id).1) := by
  intro fuel
  induction fuel with
  | zero => intro start n h1 h2 _ _; omega
  | succ fuel ih =>
      intro start n h1 h2 hmid hend
      rw [getResponseFrom]
      rcases Nat.eq_or_lt_of_le h1 with heq | hlt
      · subst heq
        rw [if_neg (by simp [hend])]
        simp
      · rw [if_pos (hmid start (Nat.le_refl _) hlt)]
        rw [ih (start + 1) n (by omega) (by omega) (fun k hk1 hk2 => hmid k (by omega) hk2) hend]
        have : n - start = (n - (start + 1)) + 1 := by omega
        rw [this, List.replicate_succ]
        simp

/-- When every poll stays pending, no amount of fuel makes the loop
return. -/
theorem getResponseFrom_none (qs : Nat → MuxDemuxQueue) (wf : ℚ) (item_id : Nat)
    (h : ∀ k, is_response_pending (qs k) item_id = true) :
    ∀ fuel start, getResponseFrom qs wf item_id start fuel = Option.none := by
  intro fuel
  induction fuel with
  | zero => intro start; rfl
  | succ fuel ih =>
      intro start
      rw [getResponseFrom, if_pos (h start), ih (start + 1)]

/-- The time spent suspended across a run of `n` sleeps of duration `wf`
followed by the receive is `n * wf`. -/
theorem traceElapsed_run (n : Nat) (wf : ℚ) (item_id : Nat) :
    traceElapsed (List.replicate n (GREvent.sleep wf) ++ [GREvent.recv item_id]) = n * wf := by
  unfold traceElapsed
  rw [List.map_append, List.map_replicate, List.sum_append]
  simp [List.sum_replicate, nsmul_eq_mul]

/-- C1 (counterexample): the claim says the shutdown path joins the
Batcher's termination (and performs the final flush) before releasing
queue resources; the shutdown trace of `terminate_processes` releases
queue resources (the MuxDemux manager shutdown) while containing no join
of the batcher process and no flush. -/
theorem shutdown_releases_queue_without_join :
    (terminate_processes_trace 42 42).contains ShutdownAction.shutdownMuxDemux = true
    ∧ (terminate_processes_trace 42 42).contains ShutdownAction.joinBatcher = false
    ∧ (terminate_processes_trace 42 42).contains ShutdownAction.finalFlush = false := by
  decide

/-- C1 (amended): in the parent process, the shutdown path terminates the
batcher process and then releases queue resources (MuxDemux manager
shutdown), commands manager, and pid files, in that order; it neither
joins the Batcher's termination nor performs a flush itself, so it does
not guarantee that accepted records are resolved before the Batcher
terminates. -/
theorem terminate_processes_shutdown_order :
    ∀ p : Nat,
      terminate_processes_trace p p
        = [ShutdownAction.terminateBatcher, ShutdownAction.shutdownMuxDemux,
           ShutdownAction.shutdownCommands, ShutdownAction.deleteChildPids,
           ShutdownAction.deletePid]
      ∧ (terminate_processes_trace p p).contains ShutdownAction.joinBatcher = false
      ∧ (terminate_processes_trace p p).contains ShutdownAction.finalFlush = false := by
  intro p
  simp [terminate_processes_trace]

/-- C2: `get_response` polls `is_response_pending` once per iteration,
sleeps `wait_frequency` after each pending poll, and at the first
not-pending poll makes exactly one `receive_from_demux` call and returns
its value (which may itself be the not-found marker). -/
theorem get_response_polls_then_receives (c : BatcherClient)
    (qs : Nat → MuxDemuxQueue) (item_id n fuel : Nat)
    (hlt : ∀ k, k < n → is_response_pending (qs k) item_id = true)
    (hn : is_response_pending (qs n) item_id = false)
    (hfuel : n < fuel) :
    get_response c qs item_id fuel
      = some (n, List.replicate n (GREvent.sleep c.wait_frequency) ++ [GREvent.recv item_id],
              (receive_from_demux (qs n) item_id).1) := by
  unfold get_response
  have h := getResponseFrom_terminates qs c.wait_frequency item_id fuel 0 n (Nat.zero_le n)
    (by omega) (fun k _ hk => hlt k hk) hn
  simpa using h

theorem get_response_polls_then_receives_witness :
    get_response (BatcherClient.init qEmpty (1/10)) qs01 7 2
      = some (1, List.replicate 1 (GREvent.sleep ((1:ℚ)/10)) ++ [GREvent.recv 7],
              (receive_from_demux (qs01 1) 7).1) :=
  get_response_polls_then_receives (BatcherClient.init qEmpty (1/10)) qs01 7 1 2
    (fun k hk => by
      have h0 : k = 0 := Nat.lt_one_iff.mp hk
      subst h0
      decide)
    (by decide) (by decide)

/-- C3: on an id for which every poll stays pending (e.g. an id never
submitted), `get_response` never returns: whatever the iteration budget,
the loop exhausts it without returning. -/
theorem get_response_never_returns_when_always_pending (c : BatcherClient)
    (qs : Nat → MuxDemuxQueue) (item_id : Nat)
    (h : ∀ k, is_response_pending (qs k) item_id = true) :
    ∀ fuel, get_response c qs item_id fuel = Option.none := by
  intro fuel
  unfold get_response
  exact getResponseFrom_none qs c.wait_frequency item_id h fuel 0

theorem get_response_never_returns_when_always_pending_witness :
    get_response (BatcherClient.init qEmpty (1/10)) (fun _ => qEmpty) 9 5 = Option.none :=
  get_response_never_returns_when_always_pending (BatcherClient.init qEmpty (1/10))
    (fun _ => qEmpty) 9 (fun _ => rfl) 5

/-- C4: `send_operation` enqueues exactly one item on the inbound channel,
with id, operation and destination taken from the header via
`get_module_index_name`, and content the Python-dict merge of the agent
metadata dump with the event data dump (event fields overriding,
`None`-valued event fields excluded) when an event is supplied, and
`None` when not. -/
theorem send_operation_builds_single_item :
    (∀ (gmin : String → String → String) (c : BatcherClient) (md : AgentMetadata)
        (hd : Header) (e : StatefulEvent),
      (send_operation gmin c md hd (some e)).1.queue.mux
        = c.queue.mux
          ++ [⟨hd.id, hd.operation,
               some (pyDictUnion md.model_dump (model_dump_exclude_none e.data)),
               gmin hd.module hd.type⟩]
      ∧ (∀ k, dictGet (pyDictUnion md.model_dump (model_dump_exclude_none e.data)) k
            = optOr (dictGet (model_dump_exclude_none e.data) k) (dictGet md.model_dump k))
      ∧ (model_dump_exclude_none e.data).all (fun kv => !(kv.2 == PyValue.none)) = true)
    ∧ (∀ (gmin : String → String → String) (c : BatcherClient) (md : AgentMetadata)
        (hd : Header),
      (send_operation gmin c md hd Option.none).1.queue.mux
        = c.queue.mux ++ [⟨hd.id, hd.operation, Option.none, gmin hd.module hd.type⟩]) := by
  constructor
  · intro gmin c md hd e
    exact ⟨rfl, fun k => dictGet_pyDictUnion _ _ k, model_dump_exclude_none_all _⟩
  · intro gmin c md hd
    rfl

/-- C6: `send_operation` never suspends and its only effect is a single
inbound-queue mutation: the client's poll interval, the outbound result
store and the recorded-id set are untouched, the effect list is exactly
one `send_to_mux`, and no sleep occurs. -/
theorem send_operation_frame :
    ∀ (gmin : String → String → String) (c : BatcherClient) (md : AgentMetadata)
      (hd : Header) (ev : Option StatefulEvent),
      (send_operation gmin c md hd ev).1.wait_frequency = c.wait_frequency
      ∧ (send_operation gmin c md hd ev).1.queue.responses = c.queue.responses
      ∧ (send_operation gmin c md hd ev).1.queue.recorded = c.queue.recorded
      ∧ (∃ i : Item,
          (send_operation gmin c md hd ev).2 = [ClientEffect.sendToMuxEff i]
          ∧ (send_operation gmin c md hd ev).1.queue = send_to_mux c.queue i)
      ∧ (send_operation gmin c md hd ev).2.all
          (fun e => match e with
            | ClientEffect.sleepEff _ => false
            | ClientEffect.sendToMuxEff _ => true) = true := by
  intro gmin c md hd ev
  exact ⟨rfl, rfl, rfl, ⟨_, rfl, rfl⟩, rfl⟩

/-- C5: once a result is recorded the loop returns without further
suspension, so the elapsed suspension is one `wait_frequency` per pending
poll and the return lags the availability time `T` by strictly less than
one poll interval. -/
theorem get_response_latency_bound (c : BatcherClient)
    (qs : Nat → MuxDemuxQueue) (item_id fuel : Nat) (T : ℚ)
    (hw : 0 < c.wait_frequency) (hT : 0 ≤ T)
    (hpend : ∀ k, is_response_pending (qs k) item_id
                = decide ((k : ℚ) * c.wait_frequency < T))
    (n : Nat) (evs : List GREvent) (r : Option PyDict)
    (hrun : get_response c qs item_id fuel = some (n, evs, r)) :
    evs = List.replicate n (GREvent.sleep c.wait_frequency) ++ [GREvent.recv item_id]
    ∧ traceElapsed evs = n * c.wait_frequency
    ∧ T ≤ (n : ℚ) * c.wait_frequency
    ∧ (n : ℚ) * c.wait_frequency < T + c.wait_frequency := by
  unfold get_response at hrun
  obtain ⟨-, hmid, hend, hevs, -⟩ :=
    getResponseFrom_eq_some qs c.wait_frequency item_id fuel 0 n evs r hrun
  have hevs' : evs
      = List.replicate n (GREvent.sleep c.wait_frequency) ++ [GREvent.recv item_id] := by
    simpa using hevs
  have hTn : T ≤ (n : ℚ) * c.wait_frequency := by
    have hp := hpend n
    rw [hend] at hp
    have hdec : ¬ ((n : ℚ) * c.wait_frequency < T) := by
      intro hlt
      rw [decide_eq_true hlt] at hp
      exact Bool.false_ne_true hp
    exact not_lt.mp hdec
  have hbound : (n : ℚ) * c.wait_frequency < T + c.wait_frequency := by
    cases n with
    | zero =>
        simp only [Nat.cast_zero, zero_mul]
        linarith
    | succ m =>
        have hm : is_response_pending (qs m) item_id = true :=
          hmid m (Nat.zero_le m) (Nat.lt_succ_self m)
        have hp := hpend m
        rw [hm] at hp
        have hmT : (m : ℚ) * c.wait_frequency < T := of_decide_eq_true hp.symm
        have hexp : ((Nat.succ m : ℕ) : ℚ) * c.wait_frequency
            = (m : ℚ) * c.wait_frequency + c.wait_frequency := by
          push_cast
          ring
        rw [hexp]
        linarith
  exact ⟨hevs', by rw [hevs']; exact traceElapsed_run n _ item_id, hTn, hbound⟩

theorem get_response_latency_bound_witness :
    [GREvent.recv 7] = List.replicate 0 (GREvent.sleep (1:ℚ)) ++ [GREvent.recv 7]
    ∧ traceElapsed [GREvent.recv 7] = ((0:ℕ) : ℚ) * 1
    ∧ (0:ℚ) ≤ ((0:ℕ) : ℚ) * 1
    ∧ ((0:ℕ) : ℚ) * 1 < 0 + 1 :=
  get_response_latency_bound (BatcherClient.init qEmpty 1) (fun _ => qDone) 7 1 0
    (by show (0:ℚ) < 1; norm_num) (le_refl 0)
    (fun k => by
      show is_response_pending qDone 7 = decide ((k : ℚ) * 1 < 0)
      have h0 : ¬ ((k : ℚ) * 1 < 0) := by
        rw [mul_one]
        exact not_lt.mpr (Nat.cast_nonneg k)
      rw [decide_eq_false h0]
      decide)
    0 [GREvent.recv 7] (receive_from_demux qDone 7).1 (by decide)

/-- C7: the shutdown path is idempotent on the process-level state:
running `terminate_processes` twice leaves the batcher process, the
managers and the pid files exactly as running it once does. -/
theorem terminate_processes_idempotent :
    ∀ (p c : Nat) (s : SysState),
      terminate_processes p c (terminate_processes p c s) = terminate_processes p c s := by
  intro p c s
  by_cases h : p = c
  · simp [terminate_processes, terminate_processes_trace, h, apply_action]
  · simp [terminate_processes, terminate_processes_trace, h]

/-- C8: the poll interval defaults to 0.1 s and is per-client
configurable, and the three batch thresholds are taken from the
externally supplied configuration at startup. -/
theorem batcher_config_surface :
    default_wait_frequency = 1/10
    ∧ (∀ q, (BatcherClient.initDefault q).wait_frequency = 1/10)
    ∧ (∀ q w, (BatcherClient.init q w).wait_frequency = w)
    ∧ (∀ cfg : CommsBatcherConfig,
        (startup_batcher_config cfg).max_elements = cfg.max_elements
        ∧ (startup_batcher_config cfg).max_size = cfg.max_size
        ∧ (startup_batcher_config cfg).max_time_seconds = cfg.wait_time) :=
  ⟨rfl, fun _ => rfl, fun _ _ => rfl, fun _ => ⟨rfl, rfl, rfl⟩⟩

/-- C9: in a process whose pid differs from `parent_pid`,
`terminate_processes` performs no action and changes none of the
process-level resources. -/
theorem terminate_processes_other_pid_noop (p c : Nat) (s : SysState) (h : p ≠ c) :
    terminate_processes p c s = s ∧ terminate_processes_trace p c = [] := by
  constructor
  · simp [terminate_processes, terminate_processes_trace, h]
  · simp [terminate_processes_trace, h]

theorem terminate_processes_other_pid_noop_witness :
    terminate_processes 1 2 ⟨true, true, true, [3], true⟩ = ⟨true, true, true, [3], true⟩
    ∧ terminate_processes_trace 1 2 = [] :=
  terminate_processes_other_pid_noop 1 2 ⟨true, true, true, [3], true⟩ (by decide)

/-- C10: `get_level_value` is total, maps info to 0, debug to 1, debug2
(the only other level) to 2, and its result is always one of 0, 1, 2. -/
theorem get_level_value_total :
    LoggingConfig.get_level_value ⟨LoggingLevel.info⟩ = 0
    ∧ LoggingConfig.get_level_value ⟨LoggingLevel.debug⟩ = 1
    ∧ LoggingConfig.get_level_value ⟨LoggingLevel.debug2⟩ = 2
    ∧ ∀ c : LoggingConfig,
        c.get_level_value = 0 ∨ c.get_level_value = 1 ∨ c.get_level_value = 2 := by
  refine ⟨rfl, rfl, rfl, ?_⟩
  intro c
  obtain ⟨l⟩ := c
  cases l <;> decide

end Wazuh
